import Mathlib

/-!
Verification of the minishell execution engine: shallow embedding of the
executor, built-in dispatch, echo built-in, exit-status collection and
pipeline orchestration, with theorems checking the specification's claims.

C strings are modelled as Lean `String`s via their `List Char` data; the
end of the list plays the role of the null terminator (a C string cannot
contain an interior null byte, which is recorded as a hypothesis where a
theorem quantifies over arbitrary strings).
-/

namespace Minishell

/-- Embedding of libft strncmp on `List Char`: compares at most `n`
characters, stopping at the first difference or at a terminator (end of
list). Returns the difference of the first mismatching characters. -/
def strncmpAux : List Char → List Char → Nat → Int
  | _, _, 0 => 0
  | [], [], _ + 1 => 0
  | [], c :: _, _ + 1 => -(c.toNat : Int)
  | c :: _, [], _ + 1 => (c.toNat : Int)
  | a :: as, b :: bs, n + 1 => if a = b then strncmpAux as bs n else (a.toNat : Int) - (b.toNat : Int)

/-- `ft_strncmp` on strings, as used throughout the executor sources. -/
def ft_strncmp (s t : String) (n : Nat) : Int :=
  strncmpAux s.data t.data n

theorem char_toNat_injective {a b : Char} (h : a.toNat = b.toNat) : a = b := by
  apply Char.ext
  exact UInt32.ext h

theorem char_sub_ne_zero {a b : Char} (h : a ≠ b) : (a.toNat : Int) - (b.toNat : Int) ≠ 0 := by
  intro hc
  exact h (char_toNat_injective (by omega))

theorem char_toNat_ne_zero {a : Char} (h : a ≠ '\x00') : (a.toNat : Int) ≠ 0 := by
  intro hc
  exact h (char_toNat_injective (by simpa using hc))

/-- `strncmpAux` with budget `length + 1` decides string equality, for
null-free character lists (the only ones that model C strings). -/
theorem strncmpAux_eq_zero_iff (t s : List Char)
    (hs : '\x00' ∉ s) (ht : '\x00' ∉ t) :
    (strncmpAux s t (t.length + 1) = 0 ↔ s = t) := by
  induction t generalizing s with
  | nil =>
    cases s with
    | nil => simp [strncmpAux]
    | cons c cs =>
      simp only [strncmpAux, List.length_nil]
      constructor
      · intro h
        exact absurd h (char_toNat_ne_zero (by intro hc; exact hs (hc ▸ List.mem_cons_self c cs)))
      · intro h; exact absurd h (by simp)
  | cons b bs ih =>
    cases s with
    | nil =>
      simp only [strncmpAux, List.length_cons]
      constructor
      · intro h
        have hb : b ≠ '\x00' := by intro hc; exact ht (hc ▸ List.mem_cons_self b bs)
        exact absurd (by omega : (b.toNat : Int) = 0) (char_toNat_ne_zero hb)
      · intro h; exact absurd h (by simp)
    | cons c cs =>
      simp only [strncmpAux, List.length_cons]
      by_cases hcb : c = b
      · subst hcb
        rw [if_pos rfl]
        have := ih cs (fun hm => hs (List.mem_cons_of_mem _ hm)) (fun hm => ht (List.mem_cons_of_mem _ hm))
        simpa using this
      · rw [if_neg hcb]
        constructor
        · intro h; exact absurd h (char_sub_ne_zero hcb)
        · intro h; cases h; exact absurd rfl hcb

theorem ft_strncmp_eq_zero_iff (s t : String)
    (hs : '\x00' ∉ s.data) (ht : '\x00' ∉ t.data) :
    (ft_strncmp s t (t.data.length + 1) = 0 ↔ s = t) := by
  rw [ft_strncmp, strncmpAux_eq_zero_iff t.data s.data hs ht]
  constructor
  · intro h; exact String.ext h
  · intro h; cases h; rfl

/-- The seven built-in command names of the shell. -/
def builtinNames : List String := ["pwd", "echo", "cd", "export", "unset", "env", "exit"]

/-- Embedding of `is_builtin` (src/unnamed/part_001): chain of
`ft_strncmp(name, lit, strlen(lit)+1) == 0` tests. -/
def is_builtin (s : String) : Bool :=
  if ft_strncmp s "pwd" 4 = 0 then true
  else if ft_strncmp s "echo" 5 = 0 then true
  else if ft_strncmp s "cd" 3 = 0 then true
  else if ft_strncmp s "export" 7 = 0 then true
  else if ft_strncmp s "unset" 6 = 0 then true
  else if ft_strncmp s "env" 4 = 0 then true
  else if ft_strncmp s "exit" 5 = 0 then true
  else false

/-- Which built-in a name dispatches to. -/
inductive Builtin where
  | pwd | echo | cd | exportCmd | unsetCmd | env | exitCmd
  deriving DecidableEq

/-- Embedding of `execute_builtin` (src/executor.c): the same strncmp
chain; `some b` models the `return (1)` path after running built-in `b`,
`none` models `return (0)` (not a built-in, caller falls through). -/
def execute_builtin (s : String) : Option Builtin :=
  if ft_strncmp s "pwd" 4 = 0 then some .pwd
  else if ft_strncmp s "echo" 5 = 0 then some .echo
  else if ft_strncmp s "cd" 3 = 0 then some .cd
  else if ft_strncmp s "export" 7 = 0 then some .exportCmd
  else if ft_strncmp s "unset" 6 = 0 then some .unsetCmd
  else if ft_strncmp s "env" 4 = 0 then some .env
  else if ft_strncmp s "exit" 5 = 0 then some .exitCmd
  else none

example : is_builtin "pwd" = true := by decide
example : is_builtin "pwdx" = false := by decide
example : is_builtin "pw" = false := by decide
example : execute_builtin "wc" = none := by decide

/-- Claim C8: built-in dispatch recognizes exactly the seven names
`pwd`, `echo`, `cd`, `export`, `unset`, `env`, `exit` by exact
whole-string match against argv[0] (strict prefixes or extensions are
not recognized), and for any other name `execute_builtin` reports
not-handled (`none`) so the caller falls through to external
resolution. -/
theorem c8_builtin_dispatch_exact (s : String) (h : '\x00' ∉ s.data) :
    (is_builtin s = true ↔ s ∈ builtinNames) ∧
    ((execute_builtin s).isSome = true ↔ s ∈ builtinNames) := by
  have e1 : (ft_strncmp s "pwd" 4 = 0) ↔ s = "pwd" :=
    ft_strncmp_eq_zero_iff s "pwd" h (by decide)
  have e2 : (ft_strncmp s "echo" 5 = 0) ↔ s = "echo" :=
    ft_strncmp_eq_zero_iff s "echo" h (by decide)
  have e3 : (ft_strncmp s "cd" 3 = 0) ↔ s = "cd" :=
    ft_strncmp_eq_zero_iff s "cd" h (by decide)
  have e4 : (ft_strncmp s "export" 7 = 0) ↔ s = "export" :=
    ft_strncmp_eq_zero_iff s "export" h (by decide)
  have e5 : (ft_strncmp s "unset" 6 = 0) ↔ s = "unset" :=
    ft_strncmp_eq_zero_iff s "unset" h (by decide)
  have e6 : (ft_strncmp s "env" 4 = 0) ↔ s = "env" :=
    ft_strncmp_eq_zero_iff s "env" h (by decide)
  have e7 : (ft_strncmp s "exit" 5 = 0) ↔ s = "exit" :=
    ft_strncmp_eq_zero_iff s "exit" h (by decide)
  constructor
  · rw [is_builtin]
    simp only [e1, e2, e3, e4, e5, e6, e7, builtinNames]
    split_ifs <;> simp_all
  · rw [execute_builtin]
    simp only [e1, e2, e3, e4, e5, e6, e7, builtinNames]
    split_ifs <;> simp_all

/-- Witness for C8: `pwdx`, an extension of `pwd`, is not recognized as
a built-in, while `pwd` itself is. -/
theorem c8_builtin_dispatch_exact_witness :
    (is_builtin "pwdx" = true ↔ "pwdx" ∈ builtinNames) ∧
    ((execute_builtin "pwdx").isSome = true ↔ "pwdx" ∈ builtinNames) :=
  c8_builtin_dispatch_exact "pwdx" (by decide)

/-! ## The echo built-in (src/unnamed/part_000) -/

/-- Number of leading `'n'` characters of a character list; models the
`while (s[j] == 'n') j++` scans of `check_n` and `last_check` (the scan
stops at the null terminator, i.e. the end of the list). -/
def countN : List Char → Nat
  | [] => 0
  | c :: t => if c = 'n' then countN t + 1 else 0

/-- Body of `last_check`'s while loop over `argv[i], argv[i+1], ...`,
taking the remaining suffix of the argument vector together with the
current index `i`. An empty suffix means `cmd->str[i]` is the NULL
terminator of the argv array, on which the loop condition evaluates
`ft_strncmp(NULL, "-n", 2)`: a null dereference, modelled as `none`. -/
def lastCheckGo : List String → Nat → Option Nat
  | [], _ => none
  | s :: rest, i =>
    if ft_strncmp s "-n" 2 = 0 then
      if s.data[1 + countN (s.data.drop 1)]? = none then lastCheckGo rest (i + 1)
      else some i
    else some i

/-- Embedding of `last_check(i, cmd)`: advances past consecutive valid
`-n...` flags starting at index `i`; `none` models the null dereference
when the scan runs past the last argument. -/
def last_check (i : Nat) (argv : List String) : Option Nat :=
  lastCheckGo (argv.drop i) i

/-- Embedding of `check_n(cmd, 1, &check, &n)` together with the callers'
initial values `i = 1`, `check = 1`, `n = 1`; returns the final
`(i, check, n)` triple, or `none` on the null dereference (which already
happens in the entry test `ft_strncmp(cmd->str[1], "-n", 2)` when the
argument vector has no argv[1]). -/
def check_n (argv : List String) : Option (Nat × Nat × Nat) :=
  match argv with
  | _ :: s :: _ =>
    if ft_strncmp s "-n" 2 = 0 then
      let ck := 1 + countN (s.data.drop 1)
      if s.data[ck]? = none then
        (last_check 2 argv).map (fun i2 => (i2, 0, 0))
      else
        (last_check 1 argv).map (fun i2 => (i2, ck, 1))
    else some (1, 1, 1)
  | _ => none

/-- Embedding of `ft_echo`: returns the text written to standard output
and the return value `0`, or `none` when the flag scan dereferences the
argv NULL terminator. `argv` is the full argument vector, argv[0] being
the command name `echo`. -/
def ft_echo (argv : List String) : Option (String × Nat) :=
  match check_n argv with
  | none => none
  | some (i, ck, n) =>
    some (String.intercalate " " (argv.drop i) ++
      (if n ≠ 0 ∧ ck ≠ 0 then "\n" else ""), 0)

example : ft_echo ["echo", "-n", "a", "b"] = some ("a b", 0) := by decide
example : ft_echo ["echo", "a", "b"] = some ("a b\n", 0) := by decide
example : ft_echo ["echo", "-n", "-n", "a"] = some ("a", 0) := by decide
example : ft_echo ["echo", "-nx", "a"] = some ("-nx a\n", 0) := by decide
example : ft_echo ["echo", "-n"] = none := by decide
example : ft_echo ["echo", "-n", "-nn"] = none := by decide
example : ft_echo ["echo"] = none := by decide

/-- A valid newline-suppression flag: `-` followed by one or more `n`s
and nothing else. -/
def validFlag (s : String) : Bool :=
  match s.data with
  | c :: d :: r => c = '-' && d = 'n' && r.all (fun x => x = 'n')
  | _ => false

/-- Length of the leading run of valid `-n` flags. -/
def leadingFlags : List String → Nat
  | [] => 0
  | s :: t => if validFlag s then leadingFlags t + 1 else 0

/-- Claim C9: for an echo invocation in which argv[1] is a valid
newline-suppression flag and every subsequent argument up to the end of
the argument vector is also a valid `-n` flag, the trailing-flag scanner
`last_check` advances past the final argument and applies `ft_strncmp`
to the NULL terminator slot of the argument vector, so the
out-of-bounds/null-dereference branch (modelled as `none`) is reachable:
witnessed by `echo -n` and `echo -n -nn`. -/
theorem c9_echo_flag_scan_overrun :
    validFlag "-n" = true ∧ validFlag "-nn" = true ∧
    last_check 2 ["echo", "-n"] = none ∧
    ft_echo ["echo", "-n"] = none ∧
    last_check 2 ["echo", "-n", "-nn"] = none ∧
    ft_echo ["echo", "-n", "-nn"] = none := by decide

theorem strncmp_dn (l : List Char) :
    strncmpAux l ['-', 'n'] 2 = 0 ↔ ∃ r, l = '-' :: 'n' :: r := by
  constructor
  · intro h
    match l with
    | [] => exact absurd h (by decide)
    | [c] =>
      by_cases hc : c = '-'
      · subst hc; exact absurd h (by decide)
      · simp only [strncmpAux, if_neg hc] at h
        exact absurd h (char_sub_ne_zero hc)
    | c :: d :: r =>
      by_cases hc : c = '-'
      · subst hc
        by_cases hd : d = 'n'
        · subst hd; exact ⟨r, rfl⟩
        · simp only [strncmpAux, if_pos rfl, if_neg hd] at h
          exact absurd h (char_sub_ne_zero hd)
      · simp only [strncmpAux, if_neg hc] at h
        exact absurd h (char_sub_ne_zero hc)
  · rintro ⟨r, rfl⟩
    simp [strncmpAux]

theorem countN_le (l : List Char) : countN l ≤ l.length := by
  induction l with
  | nil => simp [countN]
  | cons c t ih =>
    simp only [countN, List.length_cons]
    split <;> omega

theorem countN_eq_length_iff (l : List Char) :
    countN l = l.length ↔ l.all (fun x => x = 'n') = true := by
  induction l with
  | nil => simp [countN]
  | cons c t ih =>
    simp only [countN, List.length_cons, List.all_cons, Bool.and_eq_true, decide_eq_true_eq]
    constructor
    · intro h
      split at h
      · exact ⟨by assumption, ih.mp (by omega)⟩
      · have := countN_le t; omega
    · rintro ⟨hc, ht⟩
      rw [if_pos hc, ih.mpr ht]

theorem getElem?_countN (l : List Char) :
    l[countN l]? = none ↔ l.all (fun x => x = 'n') = true := by
  rw [List.getElem?_eq_none_iff, ← countN_eq_length_iff]
  have := countN_le l
  omega

theorem countN_n_cons (r : List Char) : countN ('n' :: r) = countN r + 1 := by
  simp [countN]

/-- The scan index computed from a list of shape `'-' :: 'n' :: r` lands
on `r`'s entry `countN r`. -/
theorem scan_getElem (r : List Char) :
    ('-' :: 'n' :: r)[1 + countN (('-' :: 'n' :: r).drop 1)]? = r[countN r]? := by
  rw [List.drop_succ_cons, List.drop_zero, countN_n_cons,
    show 1 + (countN r + 1) = countN r + 1 + 1 by omega]
  simp only [List.getElem?_cons_succ]

/-- The code-level test for a valid `-n` flag (the pair of conditions
evaluated by `check_n` and `last_check`) agrees with `validFlag`. -/
theorem code_flag_iff (s : String) :
    (ft_strncmp s "-n" 2 = 0 ∧ s.data[1 + countN (s.data.drop 1)]? = none) ↔
      validFlag s = true := by
  have hdn : ("-n" : String).data = ['-', 'n'] := rfl
  rw [ft_strncmp, hdn, strncmp_dn]
  constructor
  · rintro ⟨⟨r, hr⟩, h2⟩
    rw [hr, scan_getElem] at h2
    have hall := (getElem?_countN r).mp h2
    rw [validFlag, hr]
    simpa using hall
  · intro hv
    rw [validFlag] at hv
    match hl : s.data with
    | [] => rw [hl] at hv; simp at hv
    | [c] => rw [hl] at hv; simp at hv
    | c :: d :: r =>
      rw [hl] at hv
      simp only [Bool.and_eq_true, decide_eq_true_eq] at hv
      obtain ⟨⟨hc, hd⟩, hr⟩ := hv
      subst hc; subst hd
      refine ⟨⟨r, rfl⟩, ?_⟩
      rw [scan_getElem]
      exact (getElem?_countN r).mpr hr

theorem lastCheckGo_all (rest : List String) (i : Nat)
    (h : ∀ s ∈ rest, validFlag s = true) : lastCheckGo rest i = none := by
  induction rest generalizing i with
  | nil => rfl
  | cons s t ih =>
    obtain ⟨h1, h2⟩ := (code_flag_iff s).mpr (h s (List.mem_cons_self s t))
    rw [lastCheckGo, if_pos h1, if_pos h2]
    exact ih (i + 1) (fun x hx => h x (List.mem_cons_of_mem _ hx))

theorem lastCheckGo_not_all (rest : List String) (i : Nat)
    (h : ¬ ∀ s ∈ rest, validFlag s = true) :
    lastCheckGo rest i = some (i + leadingFlags rest) := by
  induction rest generalizing i with
  | nil => exact absurd (by simp) h
  | cons s t ih =>
    by_cases hs : validFlag s = true
    · obtain ⟨h1, h2⟩ := (code_flag_iff s).mpr hs
      have ht : ¬ ∀ x ∈ t, validFlag x = true := by
        intro hall
        exact h (by
          intro x hx
          rcases List.mem_cons.mp hx with hx | hx
          · rw [hx]; exact hs
          · exact hall x hx)
      rw [lastCheckGo, if_pos h1, if_pos h2, ih (i + 1) ht, leadingFlags, if_pos hs]
      congr 1
      omega
    · have hnot : ¬ (ft_strncmp s "-n" 2 = 0 ∧ s.data[1 + countN (s.data.drop 1)]? = none) :=
        fun hc => hs ((code_flag_iff s).mp hc)
      rw [lastCheckGo]
      by_cases h1 : ft_strncmp s "-n" 2 = 0
      · have h2 : ¬ s.data[1 + countN (s.data.drop 1)]? = none := fun h2 => hnot ⟨h1, h2⟩
        rw [if_pos h1, if_neg h2, leadingFlags, if_neg hs]
        simp
      · rw [if_neg h1, leadingFlags, if_neg hs]
        simp

/-- Claim C4 (amended): for every echo argument vector on which the flag
scanner stays in bounds (i.e. not every argument from argv[1] on is a
valid `-n` flag), echo writes the arguments after the leading run of
valid `-n` flags separated by single spaces and returns status 0, with
the trailing newline suppressed exactly when that leading run is
non-empty (unbroken from argv[1]). -/
theorem c4_echo_characterization (name a : String) (rest : List String)
    (h : ¬ (validFlag a = true ∧ ∀ s ∈ rest, validFlag s = true)) :
    ft_echo (name :: a :: rest) =
      some (String.intercalate " " ((a :: rest).drop (leadingFlags (a :: rest))) ++
        (if leadingFlags (a :: rest) = 0 then "\n" else ""), 0) := by
  by_cases h1 : ft_strncmp a "-n" 2 = 0
  · by_cases h2 : a.data[1 + countN (a.data.drop 1)]? = none
    · -- argv[1] is a valid flag; the scan continues at argv[2]
      have hv : validFlag a = true := (code_flag_iff a).mp ⟨h1, h2⟩
      have ht : ¬ ∀ s ∈ rest, validFlag s = true := fun hall => h ⟨hv, hall⟩
      have hc : check_n (name :: a :: rest) = some (2 + leadingFlags rest, 0, 0) := by
        rw [check_n, if_pos h1, if_pos h2, last_check]
        have hdrop : (name :: a :: rest).drop 2 = rest := rfl
        rw [hdrop, lastCheckGo_not_all rest 2 ht]
        rfl
      rw [ft_echo, hc]
      simp only
      rw [leadingFlags, if_pos hv]
      have hk : ¬ (leadingFlags rest + 1 = 0) := by omega
      rw [if_neg hk]
      have hdrop2 : (name :: a :: rest).drop (2 + leadingFlags rest) =
          rest.drop (leadingFlags rest) := by
        rw [show 2 + leadingFlags rest = leadingFlags rest + 1 + 1 by omega]
        simp [List.drop_succ_cons]
      have hdrop3 : (a :: rest).drop (leadingFlags rest + 1) = rest.drop (leadingFlags rest) := by
        simp [List.drop_succ_cons]
      rw [hdrop2, hdrop3]
      simp
    · -- argv[1] starts with "-n" but is not a valid flag
      have hv : ¬ validFlag a = true := fun htr => absurd ((code_flag_iff a).mpr htr).2 h2
      have hc : check_n (name :: a :: rest) = some (1, 1 + countN (a.data.drop 1), 1) := by
        rw [check_n, if_pos h1, if_neg h2, last_check]
        have hdrop : (name :: a :: rest).drop 1 = a :: rest := rfl
        rw [hdrop, lastCheckGo, if_pos h1, if_neg h2]
        rfl
      rw [ft_echo, hc]
      simp only
      rw [leadingFlags, if_neg hv, if_pos rfl]
      have hck : ¬ (1 + countN (a.data.drop 1) = 0) := by omega
      simp [hck]
  · -- argv[1] does not even start with "-n"
    have hv : ¬ validFlag a = true := fun htr => absurd ((code_flag_iff a).mpr htr).1 h1
    have hc : check_n (name :: a :: rest) = some (1, 1, 1) := by
      rw [check_n, if_neg h1]
    rw [ft_echo, hc]
    simp only
    rw [leadingFlags, if_neg hv, if_pos rfl]
    simp

/-- Witness for C4 (amended): `echo -n a b` writes exactly `a b` with no
trailing newline and returns status 0. -/
theorem c4_echo_characterization_witness :
    ft_echo ["echo", "-n", "a", "b"] = some ("a b", 0) := by
  have h := c4_echo_characterization "echo" "-n" ["a", "b"] (by decide)
  rw [h]; decide

/-- Counterexample for C4 as stated: `echo` invoked with no further
arguments does not return status 0 at all — the flag scan dereferences
the argv NULL terminator (modelled as `none`), so the claim's "for every
argument vector ... always returns status 0" fails. -/
theorem c4_echo_counterexample :
    ft_echo ["echo"] = none ∧ (none : Option (String × Nat)) ≠ some ("\n", 0) := by decide

/-! ## The exit-status collector (src/executor_ultis2.c, ft_waitpid) -/

/-- Interrupt signal number. -/
def SIGINT : Nat := 2
/-- Quit signal number. -/
def SIGQUIT : Nat := 3

/-- Result of waiting for one child, as decoded by the WIF macros:
either a normal exit with its `WEXITSTATUS`, or termination by the
signal `WTERMSIG`. -/
inductive WaitStatus where
  | exited (code : Nat)
  | signaled (sig : Nat)
  deriving DecidableEq

/-- The shell state read and written by `ft_waitpid`: the global
`g_return_value` and the session's `shell->stop` flag. -/
structure WaitSt where
  ret : Int
  stop : Bool
  deriving DecidableEq

/-- One iteration of `ft_waitpid`'s loop body on the status reaped for
one stage: normal exit stores the exit code, SIGINT maps to 130, SIGQUIT
to 131, any other signal leaves `g_return_value` unchanged; afterwards
`shell->stop` is set when the recorded value is 130 or 131. -/
def waitStep (st : WaitSt) (w : WaitStatus) : WaitSt :=
  let r : Int :=
    match w with
    | .exited c => (c : Int)
    | .signaled s => if s = SIGINT then 130 else if s = SIGQUIT then 131 else st.ret
  { ret := r, stop := st.stop || (r = 130 || r = 131) }

/-- Embedding of `ft_waitpid`: iterates over every stage of the pipeline
(one reaped status per stage, in list order), returning the final state
together with the number of processes reaped (`waitpid` calls). -/
def ft_waitpid : WaitSt → List WaitStatus → WaitSt × Nat
  | st, [] => (st, 0)
  | st, w :: rest =>
    let p := ft_waitpid (waitStep st w) rest
    (p.1, p.2 + 1)

theorem ft_waitpid_fst_append (st : WaitSt) (l1 l2 : List WaitStatus) :
    (ft_waitpid st (l1 ++ l2)).1 = (ft_waitpid (ft_waitpid st l1).1 l2).1 := by
  induction l1 generalizing st with
  | nil => rfl
  | cons w t ih =>
    simp only [List.cons_append, ft_waitpid]
    exact ih (waitStep st w)

theorem ft_waitpid_count (st : WaitSt) (l : List WaitStatus) :
    (ft_waitpid st l).2 = l.length := by
  induction l generalizing st with
  | nil => rfl
  | cons w t ih => simp [ft_waitpid, ih]

theorem ft_waitpid_stop_mono (st : WaitSt) (l : List WaitStatus)
    (h : st.stop = true) : (ft_waitpid st l).1.stop = true := by
  induction l generalizing st with
  | nil => exact h
  | cons w t ih =>
    simp only [ft_waitpid]
    exact ih (waitStep st w) (by simp [waitStep, h])

/-- After any single reaping step, the stop flag is at least as strong
as "the recorded value is 130 or 131". -/
theorem waitStep_stop_of_ret (st : WaitSt) (w : WaitStatus)
    (h : (waitStep st w).ret = 130 ∨ (waitStep st w).ret = 131) :
    (waitStep st w).stop = true := by
  rcases h with h | h <;> simp [waitStep] at h ⊢ <;> rw [h] <;> simp

theorem ft_waitpid_stop_invariant (st : WaitSt) (l : List WaitStatus)
    (hinv : st.ret = 130 ∨ st.ret = 131 → st.stop = true)
    (h : (ft_waitpid st l).1.ret = 130 ∨ (ft_waitpid st l).1.ret = 131) :
    (ft_waitpid st l).1.stop = true := by
  induction l generalizing st with
  | nil => exact hinv h
  | cons w t ih =>
    simp only [ft_waitpid] at h ⊢
    exact ih (waitStep st w) (fun hr => waitStep_stop_of_ret st w hr) h

/-- Claim C5: for every pipeline whose stages all exit normally and
whose last stage exits with code `c`, the final status after reaping is
`c` and exactly one process per stage is reaped. -/
theorem c5_last_stage_wins (st : WaitSt) (l : List WaitStatus) (c : Nat)
    (hall : ∀ w ∈ l, ∃ k, w = WaitStatus.exited k) :
    (ft_waitpid st (l ++ [WaitStatus.exited c])).1.ret = (c : Int) ∧
    (ft_waitpid st (l ++ [WaitStatus.exited c])).2 = l.length + 1 := by
  constructor
  · rw [ft_waitpid_fst_append]
    simp [ft_waitpid, waitStep]
  · rw [ft_waitpid_count]
    simp

/-- Witness for C5: the two-stage pipeline `false | true` (stage exit
codes 1 then 0) reaps two processes and ends with final status 0. -/
theorem c5_last_stage_wins_witness :
    (ft_waitpid ⟨0, false⟩ ([WaitStatus.exited 1] ++ [WaitStatus.exited 0])).1.ret = (0 : Int) ∧
    (ft_waitpid ⟨0, false⟩ ([WaitStatus.exited 1] ++ [WaitStatus.exited 0])).2 = 1 + 1 := by
  have h := c5_last_stage_wins ⟨0, false⟩ [WaitStatus.exited 1] 0 (by
    intro w hw
    simp at hw
    exact ⟨1, hw⟩)
  simpa using h

/-- Claim C6: one reaping step maps a normal exit to its raw exit code,
termination by SIGINT to 130 and by SIGQUIT to 131, and leaves the
recorded status unchanged for any other terminating signal. -/
theorem c6_signal_mapping (st : WaitSt) :
    (∀ c : Nat, (waitStep st (WaitStatus.exited c)).ret = (c : Int)) ∧
    (waitStep st (WaitStatus.signaled SIGINT)).ret = 130 ∧
    (waitStep st (WaitStatus.signaled SIGQUIT)).ret = 131 ∧
    (∀ s : Nat, s ≠ SIGINT → s ≠ SIGQUIT →
      (waitStep st (WaitStatus.signaled s)).ret = st.ret) := by
  refine ⟨fun c => rfl, rfl, rfl, fun s h2 h3 => ?_⟩
  simp [waitStep, h2, h3]

/-- Witness for C6: a stage killed by signal 9 (unmapped) leaves the
previously recorded status 7 unchanged, while exits and the two mapped
signals produce their codes. -/
theorem c6_signal_mapping_witness :
    (∀ c : Nat, (waitStep ⟨7, false⟩ (WaitStatus.exited c)).ret = (c : Int)) ∧
    (waitStep ⟨7, false⟩ (WaitStatus.signaled SIGINT)).ret = 130 ∧
    (waitStep ⟨7, false⟩ (WaitStatus.signaled SIGQUIT)).ret = 131 ∧
    (∀ s : Nat, s ≠ SIGINT → s ≠ SIGQUIT →
      (waitStep ⟨7, false⟩ (WaitStatus.signaled s)).ret = (⟨7, false⟩ : WaitSt).ret) :=
  c6_signal_mapping ⟨7, false⟩

/-- Claim C10: during reaping, whenever the currently recorded status is
130 or 131 after some stage has been processed, the stop flag is set at
that point and remains set for the rest of the reaping pass; in
particular a normal exit with code 130 sets it, and a stage killed by an
unmapped signal while the recorded status is already 130 keeps it set. -/
theorem c10_stop_latch (st : WaitSt) (w : WaitStatus) (pre suf : List WaitStatus) :
    (((ft_waitpid st (w :: pre)).1.ret = 130 ∨ (ft_waitpid st (w :: pre)).1.ret = 131) →
      (ft_waitpid st (w :: pre)).1.stop = true) ∧
    ((ft_waitpid st (w :: pre)).1.stop = true →
      (ft_waitpid st ((w :: pre) ++ suf)).1.stop = true) ∧
    (waitStep st (WaitStatus.exited 130)).stop = true ∧
    (st.ret = 130 → (waitStep st (WaitStatus.signaled 9)).stop = true) := by
  refine ⟨?_, ?_, ?_, ?_⟩
  · intro h
    simp only [ft_waitpid] at h ⊢
    exact ft_waitpid_stop_invariant (waitStep st w) pre
      (fun hr => waitStep_stop_of_ret st w hr) h
  · intro h
    rw [ft_waitpid_fst_append]
    exact ft_waitpid_stop_mono _ suf h
  · simp [waitStep]
  · intro h
    simp [waitStep, SIGINT, SIGQUIT, h]

/-- Witness for C10: after a stage exits normally with code 130 the stop
flag is set, and it stays set through a later normally-exiting stage. -/
theorem c10_stop_latch_witness :
    (((ft_waitpid ⟨0, false⟩ [WaitStatus.exited 130]).1.ret = 130 ∨
        (ft_waitpid ⟨0, false⟩ [WaitStatus.exited 130]).1.ret = 131) →
      (ft_waitpid ⟨0, false⟩ [WaitStatus.exited 130]).1.stop = true) ∧
    ((ft_waitpid ⟨0, false⟩ [WaitStatus.exited 130]).1.stop = true →
      (ft_waitpid ⟨0, false⟩ ([WaitStatus.exited 130] ++ [WaitStatus.exited 0])).1.stop = true) ∧
    (waitStep ⟨0, false⟩ (WaitStatus.exited 130)).stop = true ∧
    ((⟨0, false⟩ : WaitSt).ret = 130 →
      (waitStep ⟨0, false⟩ (WaitStatus.signaled 9)).stop = true) :=
  c10_stop_latch ⟨0, false⟩ (WaitStatus.exited 130) [] [WaitStatus.exited 0]

/-! ## Command resolution in the child (src/executor.c, src/executor_ultis2.c) -/

/-- Observable behaviour of the external world needed by the child's
resolution code: `access p = true` models `access(p, F_OK) == 0`,
`execOk p = true` models `execve(p, ...)` succeeding (replacing the
process image), `builtinRes b` is the status a built-in would store in
`g_return_value`, and `perr p` is the text `perror(p)` would print. -/
structure Sys where
  access : String → Bool
  execOk : String → Bool
  builtinRes : Builtin → Int
  perr : String → String

/-- How the child process terminates: `exit code err` models
`exit(code)` after writing `err` to standard error; `exec path` models a
successful `execve` replacing the process image. -/
inductive CmdOutcome where
  | exit (code : Int) (err : String)
  | exec (path : String)
  deriving DecidableEq

/-- Embedding of `execute_currdir`: handles the empty command (exit 127
with message), returns `none` (C `false`) for names without `/` or
inaccessible paths, and otherwise attempts direct execution (exec
failure exits 126 after `perror`). -/
def execute_currdir (sys : Sys) (arg0 : String) : Option CmdOutcome :=
  if arg0 = "" then
    some (.exit 127 "minishell: : command not found\n")
  else if ¬ arg0.data.contains '/' then
    none
  else if sys.access arg0 then
    if sys.execOk arg0 then some (.exec arg0)
    else some (.exit 126 ("minishell: " ++ sys.perr arg0))
  else none

/-- Embedding of `ft_execve`: walks the search directories in order,
joining `dir ++ "/" ++ arg0`; an accessible path is executed (exec
failure exits with the raw status -1 after `perror`); if no directory
yields an accessible file, exits 127 with the "command not found"
message. A NULL `path` array is the empty directory list. -/
def ft_execve (sys : Sys) (arg0 : String) : List String → CmdOutcome
  | [] => .exit 127 ("minishell: " ++ arg0 ++ ": command not found\n")
  | dir :: dirs =>
    let tmp := dir ++ "/" ++ arg0
    if sys.access tmp then
      if sys.execOk tmp then .exec tmp
      else .exit (-1) (sys.perr arg0)
    else ft_execve sys arg0 dirs

/-- Splits a character list at every occurrence of `c`. -/
def splitCharsAux : List Char → Char → List Char → List (List Char)
  | [], _, acc => [acc.reverse]
  | x :: t, c, acc =>
    if x = c then acc.reverse :: splitCharsAux t c []
    else splitCharsAux t c (x :: acc)

/-- Embedding of libft `ft_split` as used on the PATH value: fields
between `:` separators, empty fields dropped. -/
def ftSplit (s : String) (c : Char) : List String :=
  ((splitCharsAux s.data c []).map (fun l => String.mk l)).filter (fun x => ¬ x = "")

/-- The PATH lookup loop of `execute_cmd`: first environment entry whose
first five characters are `PATH=`, its value being the rest. -/
def findPATH (env : List String) : Option String :=
  (env.find? (fun e => ft_strncmp e "PATH=" 5 = 0)).map (fun e => e.drop 5)

/-- Embedding of `execute_cmd`: a NULL argv[0] exits 0; otherwise
built-ins run first (then the child exits with the stored status), then
direct/path execution, then the PATH directories, then a bare `ft_execve`
with a NULL directory list. -/
def execute_cmd (sys : Sys) (cmd : List String) (env : List String) : CmdOutcome :=
  match cmd with
  | [] => .exit 0 ""
  | arg0 :: _ =>
    match execute_builtin arg0 with
    | some b => .exit (sys.builtinRes b) ""
    | none =>
      match execute_currdir sys arg0 with
      | some out => out
      | none =>
        match findPATH env with
        | some v => ft_execve sys arg0 (ftSplit v ':')
        | none => ft_execve sys arg0 []

/-- A world in which no path is accessible and no exec succeeds. -/
def sysNone : Sys :=
  { access := fun _ => false
    execOk := fun _ => false
    builtinRes := fun _ => 0
    perr := fun _ => "" }

example : execute_cmd sysNone ["", "x"] [] =
    .exit 127 "minishell: : command not found\n" := by decide
example : execute_cmd sysNone ["nonexistent_cmd"] ["HOME=/root"] =
    .exit 127 "minishell: nonexistent_cmd: command not found\n" := by decide
example : execute_cmd sysNone ["./nonexistent"] ["PATH=/usr/bin:/bin"] =
    .exit 127 "minishell: ./nonexistent: command not found\n" := by decide

/-- Claim C3 (amended): a stage whose argv[0] is the empty string exits
with status 127 after writing `minishell: : command not found` to
standard error; a stage with no argv[0] at all instead exits with
status 0 and writes nothing. -/
theorem c3_empty_command (sys : Sys) (env rest : List String) :
    execute_cmd sys ("" :: rest) env = .exit 127 "minishell: : command not found\n" ∧
    execute_cmd sys [] env = .exit 0 "" := by
  constructor
  · have hb : execute_builtin "" = none := by decide
    rw [execute_cmd]
    rw [hb]
    rw [show execute_currdir sys "" = some (.exit 127 "minishell: : command not found\n")
      from rfl]
  · rfl

/-- Counterexample for C3 as stated: a stage with no argv[0] (empty
argument vector) exits with status 0 and no message, not with status 127
and a "command not found" message. -/
theorem c3_empty_command_counterexample :
    execute_cmd sysNone [] [] = .exit 0 "" ∧
    execute_cmd sysNone [] [] ≠ .exit 127 "minishell: : command not found\n" := by decide

theorem ft_execve_not_found (sys : Sys) (arg0 : String) (dirs : List String)
    (hacc : ∀ p, sys.access p = false) :
    ft_execve sys arg0 dirs = .exit 127 ("minishell: " ++ arg0 ++ ": command not found\n") := by
  induction dirs with
  | nil => rfl
  | cons d t ih =>
    rw [ft_execve]
    simp only [hacc, Bool.false_eq_true, if_false]
    exact ih

/-- Claim C7: resolving a non-built-in command name with no path
separator while PATH is absent from the environment exits the child with
status 127 and a "command not found" message on standard error; and
resolving a slash-containing literal path (such as `./nonexistent`) when
no path is accessible exits 127 with the same kind of message. -/
theorem c7_not_found (sys : Sys) (env rest : List String) (name : String)
    (hne : ¬ name = "") (hns : name.data.contains '/' = false)
    (hnb : execute_builtin name = none)
    (hpath : ∀ e ∈ env, ¬ ft_strncmp e "PATH=" 5 = 0)
    (env2 rest2 : List String)
    (hacc : ∀ p, sys.access p = false) :
    execute_cmd sys (name :: rest) env =
      .exit 127 ("minishell: " ++ name ++ ": command not found\n") ∧
    execute_cmd sys ("./nonexistent" :: rest2) env2 =
      .exit 127 ("minishell: ./nonexistent: command not found\n") := by
  constructor
  · rw [execute_cmd, hnb]
    have hcd : execute_currdir sys name = none := by
      rw [execute_currdir, if_neg hne,
        if_pos (fun hc => Bool.noConfusion (hns.symm.trans hc))]
    rw [hcd]
    have hfp : findPATH env = none := by
      rw [findPATH, List.find?_eq_none.mpr (by
        intro e he
        simpa using hpath e he)]
      rfl
    rw [hfp]
    exact ft_execve_not_found sys name [] hacc
  · have hnb2 : execute_builtin "./nonexistent" = none := by decide
    rw [execute_cmd, hnb2]
    have hcd : execute_currdir sys "./nonexistent" = none := by
      rw [execute_currdir, if_neg (by decide), if_neg (by decide), if_neg (by simp [hacc])]
    rw [hcd]
    match findPATH env2 with
    | some v => exact ft_execve_not_found sys "./nonexistent" (ftSplit v ':') hacc
    | none => exact ft_execve_not_found sys "./nonexistent" [] hacc

/-- Witness for C7: `nonexistent_cmd` with PATH absent, and
`./nonexistent` with nothing accessible, both exit 127 with the
"command not found" message. -/
theorem c7_not_found_witness :
    execute_cmd sysNone ["nonexistent_cmd"] ["HOME=/root"] =
      .exit 127 ("minishell: " ++ "nonexistent_cmd" ++ ": command not found\n") ∧
    execute_cmd sysNone ["./nonexistent"] ["PATH=/usr/bin:/bin"] =
      .exit 127 ("minishell: ./nonexistent: command not found\n") :=
  c7_not_found sysNone ["HOME=/root"] [] "nonexistent_cmd" (by decide) (by decide)
    (by decide) (by decide) ["PATH=/usr/bin:/bin"] [] (fun p => rfl)

/-! ## Pipeline orchestration (src/executor.c, execute / handle_pipes) -/

/-- One pipeline stage: its argument vector. -/
def Stage := List String

/-- Counters of the process-level actions a per-stage launch routine
performs: number of `fork()` calls and number of `pipe()` calls. -/
structure Orch where
  forks : Nat
  pipes : Nat
  deriving DecidableEq

/-- Embedding of `handle_pipes` exactly as it stands in src/executor.c:
its body is empty (`{}`), so it performs no action at all — no pipe is
opened, no child is forked, no descriptor is wired. -/
def handle_pipes (st : Orch) (cmd : Stage) (prev_fd : Int) : Orch := st

/-- The launch loop of `execute`: iterates over the stages while
`shell->stop` is false, invoking `handle_pipes` for each; nothing inside
the loop body changes `stop` (reaping happens only afterwards), so the
flag is constant during the walk. The descriptor bookkeeping of the loop
does not touch the counters. -/
def execute_launch : Orch → List Stage → Bool → Orch
  | st, [], _ => st
  | st, cmd :: rest, stop =>
    if stop then st else execute_launch (handle_pipes st cmd (-1)) rest stop

/-- Claim C1 (against the code as written): on a two-stage pipeline with
the stop flag false, the per-stage routine `handle_pipes` — whose body
is empty in the source — forks no child and opens no pipe, contradicting
the claimed (and documented) open-pipe/fork/wire behaviour, which would
require two forks and one pipe here. -/
theorem c1_stub_behavior :
    execute_launch ⟨0, 0⟩ [["ls"], ["wc", "-l"]] false = ⟨0, 0⟩ ∧
    ¬ ((execute_launch ⟨0, 0⟩ [["ls"], ["wc", "-l"]] false).forks = 2 ∧
       (execute_launch ⟨0, 0⟩ [["ls"], ["wc", "-l"]] false).pipes = 1) := by decide

/-- Modelled from the spec: the per-stage body of the pipeline
orchestrator (§4.4) — missing from the source, where `handle_pipes` is
an empty stub — forks exactly one child per launched stage. The launch
loop walks the stage list while the session's stop flag is false and
returns how many stages were launched (children forked); the flag is
not modified inside the loop, since status collection runs only after
all launches. -/
def launchLoop : List Stage → Bool → Nat
  | [], _ => 0
  | _ :: rest, stop => if stop then 0 else launchLoop rest stop + 1

/-- Embedding of `execute` for a multi-stage pipeline, with the launch
action of `handle_pipes` modelled from the spec (§4.4): launch stages
while the stop flag is false, then reap every outcome with `ft_waitpid`.
Returns the session state after reaping and the number of stages
launched. -/
def executeM (sess : WaitSt) (stages : List Stage) (outs : List WaitStatus) :
    WaitSt × Nat :=
  ((ft_waitpid sess outs).1, launchLoop stages sess.stop)

/-- Modelled from the spec: a new pipeline entered afterward is
unaffected by the previous halt flag (§8), i.e. the interactive loop
enters each new pipeline with the halt flag clear. -/
def enterNewPipeline (sess : WaitSt) : WaitSt := ⟨sess.ret, false⟩

theorem launchLoop_false (stages : List Stage) : launchLoop stages false = stages.length := by
  induction stages with
  | nil => rfl
  | cons s t ih => simp [launchLoop, ih]

theorem launchLoop_true (stages : List Stage) : launchLoop stages true = 0 := by
  cases stages <;> rfl

/-- Counterexample for C2 as stated: a two-stage pipeline whose first
stage is killed by SIGINT while the second exits normally with code 0
ends with final status 0 (not 130), and both stages are launched — the
halt flag, set only during reaping after all launches, prevents no stage
of the same pipeline from starting. -/
theorem c2_interrupt_counterexample :
    (executeM ⟨0, false⟩ [["sleep", "5"], ["echo", "hi"]]
        [WaitStatus.signaled 2, WaitStatus.exited 0]).1.ret ≠ 130 ∧
    (executeM ⟨0, false⟩ [["sleep", "5"], ["echo", "hi"]]
        [WaitStatus.signaled 2, WaitStatus.exited 0]).2 = 2 := by decide

/-- Claim C2 (amended): when the last reaped outcome of a pipeline is
termination by SIGINT, the final status is 130 and the halt flag is set;
since reaping runs only after the launch loop, every stage of the same
pipeline is launched regardless of the interrupt; the halt flag instead
suppresses every launch of a pipeline entered while it is still set, and
a new pipeline entered through the (spec-modelled) interactive loop
reset is unaffected by the previous halt flag. -/
theorem c2_interrupt_amended (ret0 : Int) (stages : List Stage)
    (outsPre : List WaitStatus) (sess : WaitSt) :
    ((executeM ⟨ret0, false⟩ stages (outsPre ++ [WaitStatus.signaled SIGINT])).1.ret = 130 ∧
      (executeM ⟨ret0, false⟩ stages (outsPre ++ [WaitStatus.signaled SIGINT])).1.stop = true ∧
      (executeM ⟨ret0, false⟩ stages (outsPre ++ [WaitStatus.signaled SIGINT])).2 =
        stages.length) ∧
    (sess.stop = true → (executeM sess stages outsPre).2 = 0) ∧
    (executeM (enterNewPipeline sess) stages outsPre =
      executeM ⟨sess.ret, false⟩ stages outsPre) := by
  refine ⟨⟨?_, ?_, ?_⟩, ?_, ?_⟩
  · show (ft_waitpid ⟨ret0, false⟩ (outsPre ++ [WaitStatus.signaled SIGINT])).1.ret = 130
    rw [ft_waitpid_fst_append]
    simp [ft_waitpid, waitStep, SIGINT]
  · show (ft_waitpid ⟨ret0, false⟩ (outsPre ++ [WaitStatus.signaled SIGINT])).1.stop = true
    rw [ft_waitpid_fst_append]
    simp [ft_waitpid, waitStep, SIGINT]
  · show launchLoop stages false = stages.length
    exact launchLoop_false stages
  · intro h
    show launchLoop stages sess.stop = 0
    rw [h, launchLoop_true]
  · rfl

/-- Witness for C2 (amended): entering a pipeline while the halt flag is
still set launches no stage. -/
theorem c2_interrupt_amended_witness :
    (executeM (⟨130, true⟩ : WaitSt) [["echo", "x"]] []).2 = 0 :=
  (c2_interrupt_amended 0 [["echo", "x"]] [] ⟨130, true⟩).2.1 rfl

end Minishell
